import Mathlib

/-!
Verification of the seismic `Model` layer (pysource/models.py): damping-field
synthesis (`damp_op`), the CFL stable-time-step estimator (`critical_dt` with
`_max_vp`, `_cfl_coeff`, `_thomsen_scale`), and the `m`/`dm` parameter setters.

Machine floating point is modelled by the real numbers; the finite-difference
weight computation (sympy's `finite_diff_weights`) is modelled exactly over ℚ.
-/

namespace Models

/-! Auxiliary list extrema (np.min / np.max over a nonempty axis) -/

noncomputable def listMin : List ℝ → ℝ
  | [] => 0
  | [x] => x
  | x :: y :: t => min x (listMin (y :: t))

noncomputable def listMax : List ℝ → ℝ
  | [] => 0
  | [x] => x
  | x :: y :: t => max x (listMax (y :: t))

/-! Modelling the `"%.3e" % dt` rounding step.

`"%.3e"` prints a number in scientific notation `d.ddd e±EE`: the mantissa
`x / 10^⌊log10 x⌋` is rounded to three digits after the decimal point.
Reading the printed string back yields `round(mantissa·1000)/1000 · 10^⌊log10 x⌋`.
-/

/-- Decimal exponent of a positive real: `⌊log10 x⌋`. -/
noncomputable def e10 (x : ℝ) : ℤ := ⌊Real.logb 10 x⌋

/-- The value printed by `"%.3e" % x` for `x > 0` (identity elsewhere; the
time step formatted by the code is always positive): the mantissa keeps three
digits after the decimal point, i.e. four significant digits. -/
noncomputable def round3e (x : ℝ) : ℝ :=
  if 0 < x then
    ((round (x / (10:ℝ) ^ (e10 x : ℝ) * 1000) : ℤ) : ℝ) / 1000 * (10:ℝ) ^ (e10 x : ℝ)
  else x

/-- Modelled from the spec: the spec's words "rounded to 3 significant decimal
digits" describe keeping three significant digits, i.e. a mantissa with two
digits after the decimal point.  (The source instead uses `"%.3e"`; compare
`round3e`.) -/
noncomputable def roundSig3 (x : ℝ) : ℝ :=
  if 0 < x then
    ((round (x / (10:ℝ) ^ (e10 x : ℝ) * 100) : ℤ) : ℝ) / 100 * (10:ℝ) ^ (e10 x : ℝ)
  else x

/-! Embedding of sympy `finite_diff_weights` (Fornberg's recursion), exact over ℚ

`_cfl_coeff` calls `sympy.finite_diff_weights(order, x_list, x0)` and only
uses `[-1][-1]`, the weight row of the `order`-th derivative on the full point
set.  sympy fills a table `delta[m][n][nu]` (weight of point `nu` for the
`m`-th derivative using points `0..n`) by Fornberg's recursion; each entry is
written exactly once, from entries of level `n-1`, so the table is equivalently
given by the structural recursion on `n` below.  Entries the sympy loops never
write (`nu > n` or `m > n`) remain `0`; the products `m * delta[m-1][...]`
carry an explicit `m = 0` guard because for `m = 0` the factor `m` annihilates
the (in Python negatively indexed) other operand.
-/

/-- The running product `c2` after step `n` of sympy's outer loop:
`∏_{nu < n} (x_list[n] - x_list[nu])`; `c1` at step `n` is `c2prod (n-1)`. -/
def c2prod (x_list : List ℚ) (n : ℕ) : ℚ :=
  (List.range n).foldl (fun acc nu => acc * (x_list.getD n 0 - x_list.getD nu 0)) 1

/-- Entry `delta[m][n][nu]` of `sympy.finite_diff_weights(·, x_list, x0)`
(arguments ordered `n, m, nu` so that the recursion is structural in `n`). -/
def deltaW (x_list : List ℚ) (x0 : ℚ) : ℕ → ℕ → ℕ → ℚ
  | 0, m, nu => if m = 0 ∧ nu = 0 then 1 else 0
  | n+1, m, nu =>
    if m > n + 1 then 0
    else if nu < n + 1 then
      let c3 := x_list.getD (n+1) 0 - x_list.getD nu 0
      let t : ℚ := if m = 0 then 0 else (m : ℚ) * deltaW x_list x0 n (m-1) nu
      ((x_list.getD (n+1) 0 - x0) * deltaW x_list x0 n m nu - t) / c3
    else if nu = n + 1 then
      let t : ℚ := if m = 0 then 0 else (m : ℚ) * deltaW x_list x0 n (m-1) n
      c2prod x_list n / c2prod x_list (n+1) *
        (t - (x_list.getD n 0 - x0) * deltaW x_list x0 n m n)
    else 0

/-- Row `finite_diff_weights(order, x_list, x0)[-1][-1]`: the weight row of the
`order`-th derivative using all `len(x_list)` points. -/
def lastRow (order : ℕ) (x_list : List ℚ) (x0 : ℚ) : List ℚ :=
  (List.range x_list.length).map (deltaW x_list x0 (x_list.length - 1) order)

/-- The point list `range(-so, so)`, i.e. the `2·so` integers `-so, …, so-1`. -/
def rangePoints (so : ℕ) : List ℚ :=
  (List.range (2*so)).map (fun (j : ℕ) => (j : ℚ) - (so : ℚ))

/-- Sum `sum(np.abs(w))` over a weight row. -/
def sumAbs (a : List ℚ) : ℚ := a.foldl (fun s w => s + |w|) 0

/-- Sum `sum(np.abs(coeffs[-1][-1]))` for the elastic branch of `_cfl_coeff`:
first derivative, points `range(-so, so)`, evaluated at `0.5`. -/
def elasticSumAbs (so : ℕ) : ℚ := sumAbs (lastRow 1 (rangePoints so) (1/2))

/-- Sum `sum(np.abs(coeffs))` for the acoustic branch of `_cfl_coeff`:
second derivative, points `range(-so, so)`, evaluated at `0`. -/
def acousticSumAbs (so : ℕ) : ℚ := sumAbs (lastRow 2 (rangePoints so) 0)

/-- Modelled from the spec: the spec's claimed *centered* second-derivative
stencil of half-width `so`, i.e. the symmetric points `-so, …, so`
(the source instead uses `range(-so, so)`, which omits the point `+so`). -/
def centeredAcousticSumAbs (so : ℕ) : ℚ :=
  sumAbs (lastRow 2 ((List.range (2*so+1)).map (fun (j : ℕ) => (j : ℚ) - (so : ℚ))) 0)

/-- Modelled from the spec: the spec's claimed *centered* staggered
first-derivative stencil of half-width `so` about `0.5`, i.e. the symmetric
points `-so+1, …, so` (the source instead uses `range(-so, so)`). -/
def centeredElasticSumAbs (so : ℕ) : ℚ :=
  sumAbs (lastRow 1 ((List.range (2*so)).map (fun (j : ℕ) => (j : ℚ) - (so : ℚ) + 1)) (1/2))

/-! Embedding of the `Model` CFL state.

`critical_dt` and its helpers read only: the grid spacing, the spatial
discretization order, the physics flags, and extrema of the physical fields
(`getmin`/`getmax` reduce a field to a scalar).  A model is therefore embedded
by exactly those quantities; `np.float32` arithmetic is modelled by ℝ.
-/

structure Model where
  /-- Source `self.spacing`, the grid spacing per dimension (`self.dim = len(spacing)`). -/
  spacing : List ℝ
  /-- Source `self.space_order`. -/
  space_order : ℕ
  /-- Source `self._is_elastic` (`mu is not None`). -/
  is_elastic : Bool
  /-- Source `self._is_tti` (some Thomsen input present). -/
  is_tti : Bool
  /-- Source `getmin(self.irho)`. -/
  min_irho : ℝ
  /-- Source `getmax(self.lam)`. -/
  max_lam : ℝ
  /-- Source `getmax(self.mu)`. -/
  max_mu : ℝ
  /-- Source `getmin(self.m)`, minimum of the squared slowness. -/
  min_m : ℝ
  /-- Source `getmax(self.epsilon)` of the *stored* epsilon field (the constructor
  stores `1 + 2*epsilon_input`, see `storedThomsen`). -/
  max_epsilon : ℝ
  /-- Source `self.dt`: the user-provided time step (`None` if not given). -/
  dt : Option ℝ

/-- Source `self.dim = self.grid.dim = len(spacing)`. -/
def Model.dim (m : Model) : ℕ := m.spacing.length

/-- Source `Model._max_vp`: the maximum propagation velocity. -/
noncomputable def Model.max_vp (m : Model) : ℝ :=
  if m.is_elastic then Real.sqrt (m.min_irho * (m.max_lam + 2 * m.max_mu))
  else Real.sqrt (1 / m.min_m)

/-- Source `Model._cfl_coeff`: the Courant coefficient from physics and order. -/
noncomputable def Model.cfl_coeff (m : Model) : ℝ :=
  if m.is_elastic then
    0.9 * Real.sqrt (m.dim : ℝ) / (m.dim : ℝ) /
      (((elasticSumAbs (max (m.space_order / 2) 2) : ℚ) : ℝ) / 2)
  else
    0.9 * Real.sqrt (4 / ((m.dim : ℝ) *
      ((acousticSumAbs (max (m.space_order / 2) 4) : ℚ) : ℝ)))

/-- Source `Model._thomsen_scale`: anisotropic correction of the velocity bound. -/
noncomputable def Model.thomsen_scale (m : Model) : ℝ :=
  if m.is_tti then Real.sqrt (1 + 2 * m.max_epsilon) else 1

/-- The unrounded CFL bound `self._cfl_coeff * np.min(self.spacing) /
(self._thomsen_scale * self._max_vp)` computed by `critical_dt`. -/
noncomputable def Model.raw_dt (m : Model) : ℝ :=
  m.cfl_coeff * listMin m.spacing / (m.thomsen_scale * m.max_vp)

/-- Source `Model.critical_dt`: the returned time step together with the number of
warnings emitted.  `if self.dt:` is Python truthiness, hence the `u ≠ 0`
test for a supplied step. -/
noncomputable def Model.critical_dt (m : Model) : ℝ × ℕ :=
  let dt := round3e m.raw_dt
  match m.dt with
  | none => (dt, 0)
  | some u =>
    if u ≠ 0 then
      if u > dt then (dt, 1) else (round3e u, 0)
    else (dt, 0)

/-- Line 236 of the constructor: the Thomsen `epsilon`/`delta` inputs are
stored as `1 + 2 * input` (elementwise over the input field). -/
def storedThomsen (eps : List ℝ) : List ℝ := eps.map (fun e => 1 + 2 * e)

/-- Line 239 of the constructor: `self.scale = np.sqrt(np.max(epsilon))`,
computed from the *stored* epsilon field. -/
noncomputable def initScale (epsStored : List ℝ) : ℝ := Real.sqrt (listMax epsStored)

/-! Embedding of `damp_op`, the damping-field initialization.

`damp_op` builds the operator
  `damp = base;  for each dimension d and side:  damp[region] += val / h_d`
where `base` is `1` for `abc_type == "mask"` and `0` for `"damp"`, and the
regions are `SubDimension.left/right` strips of thickness `nbl - 3` (resp.
`nbr - 3`).  When `fs` is set, the *left* strip of the last dimension is
skipped.  Executing the operator on a grid of shape `size d` per dimension
(indices `0 … size d - 1`) yields the pointwise value `dampField` below.
-/

inductive AbcType | mask | damp
deriving DecidableEq

/-- Base value of the field: `Eq(damp, 1.0 if abc_type == "mask" else 0.0)`. -/
noncomputable def baseVal : AbcType → ℝ
  | AbcType.mask => 1
  | AbcType.damp => 0

/-- Source `dampcoeff = 1.5 * np.log(1.0 / 0.001) / nbl` for effective thickness
`nbl` (the code computes it after the `nbl = nbl - 3` buffer subtraction). -/
noncomputable def dampcoeff (n : ℤ) : ℝ := 1.5 * Real.log (1 / 0.001) / (n : ℝ)

/-- Source `pos = Abs((nbl - dist + 1) / float(nbl))` where `dist` is the offset of
the point into the strip measured from the outer grid edge. -/
noncomputable def posVal (n dist : ℤ) : ℝ := |((n : ℝ) - (dist : ℝ) + 1) / (n : ℝ)|

/-- Source `val = dampcoeff * (pos - sin(2*pi*pos)/(2*pi))`, negated for mask. -/
noncomputable def rampVal (abc : AbcType) (n dist : ℤ) : ℝ :=
  let v := dampcoeff n *
    (posVal n dist - Real.sin (2 * Real.pi * posVal n dist) / (2 * Real.pi))
  match abc with
  | AbcType.mask => -v
  | AbcType.damp => v

/-- The damping grid data `damp_op` is executed on: points per dimension,
layer thicknesses (`padsizes`) per dimension and side, and grid spacing. -/
structure DampGrid (nd : ℕ) where
  size : Fin nd → ℕ
  pad : Fin nd → ℕ × ℕ
  spacing : Fin nd → ℝ

/-- Contribution `Inc`-ed by the left strip of dimension `d` at index `i`
(0-based; `d.symbolic_min = 0`).  The strip has thickness `(pad d).1 - 3`
and is skipped entirely when `fs` is set and `d` is the last dimension. -/
noncomputable def leftContrib (nd : ℕ) (g : DampGrid nd) (abc : AbcType)
    (fs : Bool) (d : Fin nd) (i : ℤ) : ℝ :=
  if fs = true ∧ (d : ℕ) = nd - 1 then 0
  else
    let n : ℤ := ((g.pad d).1 : ℤ) - 3
    if 0 ≤ i ∧ i ≤ n - 1 then rampVal abc n i / g.spacing d else 0

/-- Contribution `Inc`-ed by the right strip of dimension `d` at index `i`
(`d.symbolic_max = size d - 1`); the strip has thickness `(pad d).2 - 3`. -/
noncomputable def rightContrib (nd : ℕ) (g : DampGrid nd) (abc : AbcType)
    (d : Fin nd) (i : ℤ) : ℝ :=
  let n : ℤ := ((g.pad d).2 : ℤ) - 3
  let mx : ℤ := ((g.size d : ℕ) : ℤ) - 1
  if mx - n + 1 ≤ i ∧ i ≤ mx then rampVal abc n (mx - i) / g.spacing d else 0

/-- The damping field after `initialize_damp`: base value plus the
accumulated (`Inc`) strip contributions of every dimension and side. -/
noncomputable def dampField (nd : ℕ) (g : DampGrid nd) (abc : AbcType)
    (fs : Bool) (idx : Fin nd → ℤ) : ℝ :=
  baseVal abc +
    ∑ d : Fin nd, (leftContrib nd g abc fs d (idx d) + rightContrib nd g abc d (idx d))

/-- Source `Model.padsizes`: `nbl` on both sides of every dimension, except the left
side of the last dimension which is `0` under free surface. -/
def padsizes (nd nbl : ℕ) (fs : Bool) (d : Fin nd) : ℕ × ℕ :=
  if (d : ℕ) = nd - 1 then (if fs then 0 else nbl, nbl) else (nbl, nbl)

/-- Modelled from the spec: the boundary ramp asserted by section 4.1 for
effective thickness `n` and distance `dist` to the outer layer edge, divided
by the grid spacing `h` (the undivided ramp is recovered with `h = 1`):
`coeff * (pos - sin(2*pi*pos)/(2*pi)) / h` with `coeff = 1.5*ln(1000)/n` and
`pos = |n - dist + 1| / n`. -/
noncomputable def specRamp (n dist : ℤ) (h : ℝ) : ℝ :=
  1.5 * Real.log 1000 / (n : ℝ) *
    (|(n : ℝ) - (dist : ℝ) + 1| / (n : ℝ) -
      Real.sin (2 * Real.pi * (|(n : ℝ) - (dist : ℝ) + 1| / (n : ℝ))) / (2 * Real.pi)) / h

/-! Embedding of the `m` / `dm` setters (array inputs).

Both setters dispatch on the shape of an incoming `np.ndarray`; the shapes
involved are `self.shape` (unpadded) and `self.<field>.shape` (padded).
The `ValueError` message interpolates the offending shape and both accepted
shapes, modelled by the `ShapeError` record.
-/

structure ShapeError where
  offending : List ℕ
  unpadded : List ℕ
  padded : List ℕ
deriving DecidableEq

inductive SetOutcome
  /-- Branch `self.<field>.data[:] = new[:]`: the padded field data is overwritten. -/
  | writePadded
  /-- Branch `initialize_function(...)`: an unpadded array is padded into the field. -/
  | initUnpadded
  /-- Branch `self._dm = self._gen_phys_param(dm, 'dm', ...)`: the perturbation was
  not yet a `Function`; `_gen_phys_param` performs no shape validation
  (a non-`self.shape` array is broadcast-assigned into the new field). -/
  | genPhysParam
  /-- Branch `raise ValueError(...)` naming the three shapes. -/
  | raised (e : ShapeError)
deriving DecidableEq

/-- The `m` setter on an `np.ndarray` input (checks the padded shape first). -/
def mSetArray (unpadded padded newShape : List ℕ) : SetOutcome :=
  if newShape = padded then SetOutcome.writePadded
  else if newShape = unpadded then SetOutcome.initUnpadded
  else SetOutcome.raised ⟨newShape, unpadded, padded⟩

/-- The `dm` setter on an `np.ndarray` input: when `self._dm` is not a
`Function` the array goes to `_gen_phys_param` unconditionally; otherwise the
unpadded shape is checked first, then the padded shape. -/
def dmSetArray (dmIsFunction : Bool) (unpadded padded newShape : List ℕ) :
    SetOutcome :=
  if dmIsFunction = false then SetOutcome.genPhysParam
  else if newShape = unpadded then SetOutcome.initUnpadded
  else if newShape = padded then SetOutcome.writePadded
  else SetOutcome.raised ⟨newShape, unpadded, padded⟩

/-- Stored field contents (abstracted to a tag) after a setter outcome: a
`ValueError` is raised before any write, so `raised` leaves them unchanged. -/
def applySet (cur newData : ℕ) : SetOutcome → ℕ
  | SetOutcome.writePadded => newData
  | SetOutcome.initUnpadded => newData
  | SetOutcome.genPhysParam => newData
  | SetOutcome.raised _ => cur

/-! Constructor physics flags and encoding selection. -/

/-- The constructor inputs that decide the boundary encoding and the
physics flags (`None` = parameter not supplied). -/
structure ModelInit where
  qp : Option (List ℝ)
  mu : Option (List ℝ)

/-- Line 189: `abc_type = "mask" if (qp is not None or mu is not None) else
"damp"`. -/
def ModelInit.abc_type (mi : ModelInit) : AbcType :=
  if mi.qp.isSome || mi.mu.isSome then AbcType.mask else AbcType.damp

/-- Source `self._is_viscoacoustic = qp is not None`. -/
def ModelInit.is_viscoacoustic (mi : ModelInit) : Bool := mi.qp.isSome

/-- Source `self._is_elastic = mu is not None`. -/
def ModelInit.is_elastic (mi : ModelInit) : Bool := mi.mu.isSome

/-! Concrete instances used by the claim theorems below. -/

/-- A 2-D acoustic order-8 model, unit spacing, no user step; the squared
slowness cancels the stencil constant (`acousticSumAbs 4 = 272/45`) so that
the unrounded CFL bound is exactly `1.2344`. -/
noncomputable def mC2 : Model :=
  ⟨[1, 1], 8, false, false, 0, 0, 0, (1543/1125 : ℝ)^2 * (272/45 : ℝ) / 2, 0, none⟩

/-- A 2-D acoustic order-8 model whose unrounded CFL bound is exactly `9`,
with user-supplied step `1.2344`. -/
noncomputable def mC3 : Model :=
  ⟨[1, 1], 8, false, false, 0, 0, 0, (2720/9 : ℝ), 0, some (1543/1250 : ℝ)⟩

/-- A plain 2-D acoustic order-8 model with no user step. -/
noncomputable def mC2W : Model := ⟨[1, 1], 8, false, false, 0, 0, 0, 1, 0, none⟩

/-- A TTI model whose Thomsen `epsilon` input field is `[0.2]`; the stored
epsilon extremum is `max(1 + 2*0.2)`. -/
noncomputable def mC4 : Model :=
  ⟨[1, 1], 8, false, true, 0, 0, 0, 1, listMax (storedThomsen [(0.2 : ℝ)]), none⟩

/-- A non-TTI companion model for the anisotropy-scaling claim. -/
noncomputable def mC4b : Model := ⟨[1, 1], 8, false, false, 0, 0, 0, 1, 0, none⟩

/-- A 2-D acoustic order-8 model used against the claimed centered stencil. -/
noncomputable def mC5 : Model := ⟨[1, 1], 8, false, false, 0, 0, 0, 1, 0, none⟩

/-- Acoustic model with maximum velocity `1` (`min_m = 1`). -/
noncomputable def mC8a : Model := ⟨[1, 1], 8, false, false, 0, 0, 0, 1, 0, none⟩

/-- The model `mC8a` with the velocity raised to `2` (`min_m = 1/4`). -/
noncomputable def mC8b : Model := ⟨[1, 1], 8, false, false, 0, 0, 0, (1/4 : ℝ), 0, none⟩

/-- One-dimensional grid of 100 points, `padsizes = (40, 40)`, spacing 1. -/
noncomputable def gC1 : DampGrid 1 := ⟨fun _ => 100, fun _ => (40, 40), fun _ => 1⟩

/-- One-dimensional grid of 100 points, `padsizes = (40, 40)`, spacing 2. -/
noncomputable def gC6 : DampGrid 1 := ⟨fun _ => 100, fun _ => (40, 40), fun _ => 2⟩

/-- Two-dimensional grid of 100 points per side, thickness 40, spacing 1. -/
noncomputable def gC7 : DampGrid 2 := ⟨fun _ => 100, fun _ => (40, 40), fun _ => 1⟩

/-- The grid `gC7` with the near-side thickness of the last dimension
changed from 40 to 7. -/
noncomputable def gC7b : DampGrid 2 :=
  ⟨fun _ => 100, fun d => if (d : ℕ) = 1 then (7, 40) else (40, 40), fun _ => 1⟩

/-! Properties of the rounding and formatting model. -/

theorem round_mono {x y : ℝ} (h : x ≤ y) : round x ≤ round y := by
  rw [round_eq, round_eq]
  exact Int.floor_mono (by linarith)

theorem e10_pow_le {x : ℝ} (hx : 0 < x) : (10:ℝ) ^ (e10 x : ℝ) ≤ x := by
  have h1 : (10:ℝ) ^ ((e10 x : ℝ)) ≤ (10:ℝ) ^ (Real.logb 10 x) :=
    Real.rpow_le_rpow_of_exponent_le (by norm_num) (Int.floor_le _)
  have h2 : (10:ℝ) ^ (Real.logb 10 x) = x :=
    Real.rpow_logb (by norm_num) (by norm_num) hx
  linarith

theorem lt_e10_pow {x : ℝ} (hx : 0 < x) : x < (10:ℝ) ^ ((e10 x : ℝ) + 1) := by
  have h1 : (10:ℝ) ^ (Real.logb 10 x) < (10:ℝ) ^ ((e10 x : ℝ) + 1) := by
    apply Real.rpow_lt_rpow_of_exponent_lt (by norm_num)
    have h := Int.lt_floor_add_one (Real.logb 10 x)
    simp only [e10]
    linarith
  have h2 : (10:ℝ) ^ (Real.logb 10 x) = x :=
    Real.rpow_logb (by norm_num) (by norm_num) hx
  linarith

theorem e10_eq {y : ℝ} {e : ℤ} (hy : 0 < y)
    (h1 : (10:ℝ) ^ (e : ℝ) ≤ y) (h2 : y < (10:ℝ) ^ ((e : ℝ) + 1)) : e10 y = e := by
  unfold e10
  rw [Int.floor_eq_iff]
  constructor
  · exact (Real.le_logb_iff_rpow_le (by norm_num) hy).mpr h1
  · have h3 : Real.logb 10 y < (e : ℝ) + 1 :=
      (Real.logb_lt_iff_lt_rpow (by norm_num) hy).mpr h2
    exact_mod_cast h3

theorem mantissa_bounds {x : ℝ} (hx : 0 < x) :
    1 ≤ x / (10:ℝ) ^ (e10 x : ℝ) ∧ x / (10:ℝ) ^ (e10 x : ℝ) < 10 := by
  have hp : (0:ℝ) < (10:ℝ) ^ (e10 x : ℝ) := Real.rpow_pos_of_pos (by norm_num) _
  constructor
  · rw [le_div_iff hp, one_mul]
    exact e10_pow_le hx
  · rw [div_lt_iff hp]
    have h := lt_e10_pow hx
    have : (10:ℝ) ^ ((e10 x : ℝ) + 1) = (10:ℝ) ^ (e10 x : ℝ) * 10 := by
      rw [Real.rpow_add (by norm_num), Real.rpow_one]
    nlinarith

theorem round_thousand : round ((1000:ℝ)) = 1000 := by
  have h : ((1000:ℤ):ℝ) = (1000:ℝ) := by norm_num
  rw [← h, round_intCast]

theorem round_ten_thousand : round ((10000:ℝ)) = 10000 := by
  have h : ((10000:ℤ):ℝ) = (10000:ℝ) := by norm_num
  rw [← h, round_intCast]

theorem round3e_mantissa_lb {x : ℝ} (hx : 0 < x) :
    (1000:ℤ) ≤ round (x / (10:ℝ) ^ (e10 x : ℝ) * 1000) := by
  have h := (mantissa_bounds hx).1
  calc (1000:ℤ) = round ((1000:ℝ)) := round_thousand.symm
    _ ≤ _ := round_mono (by nlinarith)

theorem round3e_mantissa_ub {x : ℝ} (hx : 0 < x) :
    round (x / (10:ℝ) ^ (e10 x : ℝ) * 1000) ≤ 10000 := by
  have h := (mantissa_bounds hx).2
  calc round (x / (10:ℝ) ^ (e10 x : ℝ) * 1000)
      ≤ round ((10000:ℝ)) := round_mono (by nlinarith)
    _ = 10000 := round_ten_thousand

theorem round3e_pos {x : ℝ} (hx : 0 < x) : 0 < round3e x := by
  rw [round3e, if_pos hx]
  have h1 := round3e_mantissa_lb hx
  have hp : (0:ℝ) < (10:ℝ) ^ (e10 x : ℝ) := Real.rpow_pos_of_pos (by norm_num) _
  have h2 : (1000:ℝ) ≤ ((round (x / (10:ℝ) ^ (e10 x : ℝ) * 1000) : ℤ) : ℝ) := by
    exact_mod_cast h1
  nlinarith

theorem round3e_bounds {x : ℝ} (hx : 0 < x) :
    (10:ℝ) ^ (e10 x : ℝ) ≤ round3e x ∧ round3e x ≤ (10:ℝ) ^ ((e10 x : ℝ) + 1) := by
  rw [round3e, if_pos hx]
  have h1 := round3e_mantissa_lb hx
  have h2 := round3e_mantissa_ub hx
  have hp : (0:ℝ) < (10:ℝ) ^ (e10 x : ℝ) := Real.rpow_pos_of_pos (by norm_num) _
  have h1r : (1000:ℝ) ≤ ((round (x / (10:ℝ) ^ (e10 x : ℝ) * 1000) : ℤ) : ℝ) := by
    exact_mod_cast h1
  have h2r : ((round (x / (10:ℝ) ^ (e10 x : ℝ) * 1000) : ℤ) : ℝ) ≤ 10000 := by
    exact_mod_cast h2
  have hsum : (10:ℝ) ^ ((e10 x : ℝ) + 1) = (10:ℝ) ^ (e10 x : ℝ) * 10 := by
    rw [Real.rpow_add (by norm_num), Real.rpow_one]
  constructor
  · nlinarith
  · nlinarith

theorem round3e_mono {x y : ℝ} (hx : 0 < x) (hxy : x ≤ y) : round3e x ≤ round3e y := by
  have hy : 0 < y := lt_of_lt_of_le hx hxy
  have hee : e10 x ≤ e10 y := by
    unfold e10
    exact Int.floor_mono (Real.logb_le_logb_of_le (by norm_num) hx hxy)
  rcases lt_or_eq_of_le hee with hlt | heq
  · have h1 : round3e x ≤ (10:ℝ) ^ ((e10 x : ℝ) + 1) := (round3e_bounds hx).2
    have h2 : (10:ℝ) ^ ((e10 y : ℝ)) ≤ round3e y := (round3e_bounds hy).1
    have h3 : (10:ℝ) ^ ((e10 x : ℝ) + 1) ≤ (10:ℝ) ^ ((e10 y : ℝ)) := by
      apply Real.rpow_le_rpow_of_exponent_le (by norm_num)
      have h4 : e10 x + 1 ≤ e10 y := hlt
      exact_mod_cast h4
    linarith
  · rw [round3e, if_pos hx, round3e, if_pos hy, ← heq]
    have hp : (0:ℝ) < (10:ℝ) ^ (e10 x : ℝ) := Real.rpow_pos_of_pos (by norm_num) _
    have hr : round (x / (10:ℝ) ^ (e10 x : ℝ) * 1000)
        ≤ round (y / (10:ℝ) ^ (e10 x : ℝ) * 1000) := by
      apply round_mono
      have hd : x / (10:ℝ) ^ (e10 x : ℝ) ≤ y / (10:ℝ) ^ (e10 x : ℝ) :=
        div_le_div_of_nonneg_right hxy hp.le
      nlinarith
    have hrr : ((round (x / (10:ℝ) ^ (e10 x : ℝ) * 1000) : ℤ) : ℝ)
        ≤ ((round (y / (10:ℝ) ^ (e10 x : ℝ) * 1000) : ℤ) : ℝ) := by exact_mod_cast hr
    nlinarith

theorem round3e_idem {x : ℝ} (hx : 0 < x) : round3e (round3e x) = round3e x := by
  have hp : (0:ℝ) < (10:ℝ) ^ (e10 x : ℝ) := Real.rpow_pos_of_pos (by norm_num) _
  have hvpos : 0 < round3e x := round3e_pos hx
  have hval : round3e x
      = ((round (x / (10:ℝ) ^ (e10 x : ℝ) * 1000) : ℤ) : ℝ) / 1000 * (10:ℝ) ^ (e10 x : ℝ) := by
    rw [round3e, if_pos hx]
  have hub := round3e_mantissa_ub hx
  rcases lt_or_eq_of_le hub with hlt | heqq
  · -- mantissa rounds below 10.000: the decade is unchanged
    have hlow : (10:ℝ) ^ (e10 x : ℝ) ≤ round3e x := (round3e_bounds hx).1
    have h1 := round3e_mantissa_lb hx
    have h2r : ((round (x / (10:ℝ) ^ (e10 x : ℝ) * 1000) : ℤ) : ℝ) < 10000 := by
      exact_mod_cast hlt
    have hhigh : round3e x < (10:ℝ) ^ ((e10 x : ℝ) + 1) := by
      have hsum : (10:ℝ) ^ ((e10 x : ℝ) + 1) = (10:ℝ) ^ (e10 x : ℝ) * 10 := by
        rw [Real.rpow_add (by norm_num), Real.rpow_one]
      rw [hval, hsum]
      nlinarith
    have he : e10 (round3e x) = e10 x := e10_eq hvpos hlow hhigh
    rw [round3e, if_pos hvpos, he]
    have hm : round3e x / (10:ℝ) ^ (e10 x : ℝ) * 1000
        = ((round (x / (10:ℝ) ^ (e10 x : ℝ) * 1000) : ℤ) : ℝ) := by
      rw [hval]
      field_simp
      ring
    rw [hm, round_intCast, ← hval]
  · -- mantissa rounds up to exactly 10.000: the value is the next power of ten
    have hten : round3e x = (10:ℝ) ^ ((e10 x : ℝ) + 1) := by
      rw [hval, heqq]
      rw [Real.rpow_add (by norm_num), Real.rpow_one]
      push_cast
      ring
    have hcast : ((e10 x + 1 : ℤ) : ℝ) = (e10 x : ℝ) + 1 := by push_cast; ring
    have he : e10 (round3e x) = e10 x + 1 := by
      apply e10_eq hvpos
      · rw [hcast, hten]
      · rw [hcast, hten]
        apply Real.rpow_lt_rpow_of_exponent_lt (by norm_num)
        linarith
    rw [round3e, if_pos hvpos, he, hcast, hten]
    have hp1 : (0:ℝ) < (10:ℝ) ^ ((e10 x : ℝ) + 1) := Real.rpow_pos_of_pos (by norm_num) _
    have hm : (10:ℝ) ^ ((e10 x : ℝ) + 1) / (10:ℝ) ^ ((e10 x : ℝ) + 1) * 1000 = (1000:ℝ) := by
      field_simp
    rw [hm, round_thousand]
    push_cast
    ring

/-! Claim theorems. -/

/-- C10: a model's boundary field uses the "mask" encoding (base value 1) iff
the model is viscoacoustic (`qp` provided) or elastic (`mu` provided); in
every other case it uses the "damp" encoding (base value 0). -/
theorem C10_mask_iff_visco_or_elastic (mi : ModelInit) :
    (mi.abc_type = AbcType.mask ↔
      (mi.is_viscoacoustic = true ∨ mi.is_elastic = true)) ∧
    (mi.abc_type = AbcType.damp ↔
      ¬(mi.is_viscoacoustic = true ∨ mi.is_elastic = true)) ∧
    baseVal AbcType.mask = 1 ∧ baseVal AbcType.damp = 0 := by
  unfold ModelInit.abc_type ModelInit.is_viscoacoustic ModelInit.is_elastic
  rcases hq : mi.qp.isSome <;> rcases hm : mi.mu.isSome <;>
    simp [baseVal]

/-- C9 counterexample: with a not-yet-`Function` perturbation, the `dm`
setter routes a shape-mismatched array (here `(1,1)`, matching neither the
unpadded `(10,10)` nor the padded `(90,90)` shape) to `_gen_phys_param`
instead of raising the shape `ValueError`. -/
theorem C9_counterexample :
    dmSetArray false [10, 10] [90, 90] [1, 1] = SetOutcome.genPhysParam ∧
    [(1:ℕ), 1] ≠ [10, 10] ∧ [(1:ℕ), 1] ≠ [90, 90] ∧
    dmSetArray false [10, 10] [90, 90] [1, 1] ≠
      SetOutcome.raised ⟨[1, 1], [10, 10], [90, 90]⟩ := by
  refine ⟨rfl, by decide, by decide, by decide⟩

/-- C9 amended: the `m` setter always — and the `dm` setter whenever the
stored perturbation is already a `Function` — rejects an array matching
neither accepted shape with a `ValueError` naming the offending shape and
both accepted shapes, leaving the stored field unchanged; arrays matching
either accepted shape are accepted without that error.  When the stored
perturbation is not a `Function`, the `dm` setter instead hands any array to
`_gen_phys_param` without this shape check. -/
theorem C9_amended (unpadded padded newShape : List ℕ) (cur newData : ℕ)
    (hu : newShape ≠ unpadded) (hp : newShape ≠ padded) :
    mSetArray unpadded padded newShape =
      SetOutcome.raised ⟨newShape, unpadded, padded⟩ ∧
    applySet cur newData (mSetArray unpadded padded newShape) = cur ∧
    dmSetArray true unpadded padded newShape =
      SetOutcome.raised ⟨newShape, unpadded, padded⟩ ∧
    applySet cur newData (dmSetArray true unpadded padded newShape) = cur ∧
    (∀ s : List ℕ, (s = unpadded ∨ s = padded) →
      (∀ e : ShapeError, mSetArray unpadded padded s ≠ SetOutcome.raised e) ∧
      (∀ e : ShapeError, dmSetArray true unpadded padded s ≠ SetOutcome.raised e)) ∧
    (∀ s : List ℕ, dmSetArray false unpadded padded s = SetOutcome.genPhysParam) := by
  have hm : mSetArray unpadded padded newShape =
      SetOutcome.raised ⟨newShape, unpadded, padded⟩ := by
    unfold mSetArray
    rw [if_neg hp, if_neg hu]
  have hd : dmSetArray true unpadded padded newShape =
      SetOutcome.raised ⟨newShape, unpadded, padded⟩ := by
    unfold dmSetArray
    rw [if_neg (by simp), if_neg hu, if_neg hp]
  refine ⟨hm, by rw [hm]; rfl, hd, by rw [hd]; rfl, ?_, fun s => rfl⟩
  rintro s (rfl | rfl)
  · constructor
    · intro e
      unfold mSetArray
      by_cases h : s = padded <;> simp [h]
    · intro e
      unfold dmSetArray
      simp
  · constructor
    · intro e
      unfold mSetArray
      simp
    · intro e
      unfold dmSetArray
      by_cases h : s = unpadded <;> simp [h]

/-- C9 witness: instantiation of the amended setter contract at shapes
`(10,10)` (unpadded), `(90,90)` (padded) and offending shape `(5,5)`. -/
theorem C9_witness :
    ([(5:ℕ), 5] ≠ [10, 10] ∧ [(5:ℕ), 5] ≠ [90, 90]) ∧
    (mSetArray [10, 10] [90, 90] [5, 5] =
      SetOutcome.raised ⟨[5, 5], [10, 10], [90, 90]⟩ ∧
    applySet 0 1 (mSetArray [10, 10] [90, 90] [5, 5]) = 0 ∧
    dmSetArray true [10, 10] [90, 90] [5, 5] =
      SetOutcome.raised ⟨[5, 5], [10, 10], [90, 90]⟩ ∧
    applySet 0 1 (dmSetArray true [10, 10] [90, 90] [5, 5]) = 0 ∧
    (∀ s : List ℕ, (s = [10, 10] ∨ s = [90, 90]) →
      (∀ e : ShapeError, mSetArray [10, 10] [90, 90] s ≠ SetOutcome.raised e) ∧
      (∀ e : ShapeError, dmSetArray true [10, 10] [90, 90] s ≠ SetOutcome.raised e)) ∧
    (∀ s : List ℕ, dmSetArray false [10, 10] [90, 90] s = SetOutcome.genPhysParam)) :=
  ⟨⟨by decide, by decide⟩,
    C9_amended [10, 10] [90, 90] [5, 5] 0 1 (by decide) (by decide)⟩

/-! Helper lemmas for concrete evaluations. -/

theorem e10_unit {x : ℝ} (h1 : 1 ≤ x) (h2 : x < 10) : e10 x = 0 := by
  apply e10_eq (lt_of_lt_of_le zero_lt_one h1)
  · simp only [Int.cast_zero, Real.rpow_zero]
    exact h1
  · simp only [Int.cast_zero, zero_add, Real.rpow_one]
    exact h2

theorem round3e_unit {x : ℝ} (h1 : 1 ≤ x) (h2 : x < 10) :
    round3e x = ((round (x * 1000) : ℤ) : ℝ) / 1000 := by
  have hx : 0 < x := lt_of_lt_of_le zero_lt_one h1
  rw [round3e, if_pos hx, e10_unit h1 h2]
  simp only [Int.cast_zero, Real.rpow_zero, div_one, mul_one]

theorem roundSig3_unit {x : ℝ} (h1 : 1 ≤ x) (h2 : x < 10) :
    roundSig3 x = ((round (x * 100) : ℤ) : ℝ) / 100 := by
  have hx : 0 < x := lt_of_lt_of_le zero_lt_one h1
  rw [roundSig3, if_pos hx, e10_unit h1 h2]
  simp only [Int.cast_zero, Real.rpow_zero, div_one, mul_one]

theorem round_eq_of {x : ℝ} {z : ℤ} (h1 : (z : ℝ) ≤ x + 1/2) (h2 : x + 1/2 < z + 1) :
    round x = z := by
  rw [round_eq]
  exact Int.floor_eq_iff.mpr ⟨h1, h2⟩

set_option maxRecDepth 10000 in
theorem acousticSumAbs_four : acousticSumAbs 4 = 272/45 := by
  with_unfolding_all rfl

set_option maxRecDepth 10000 in
theorem elasticSumAbs_four : elasticSumAbs 4 = 3725/1536 := by
  with_unfolding_all rfl

set_option maxRecDepth 10000 in
theorem centeredAcousticSumAbs_four : centeredAcousticSumAbs 4 = 2048/315 := by
  with_unfolding_all rfl

theorem cfl_coeff_acoustic_88 (m : Model) (hel : m.is_elastic = false)
    (hsp : m.spacing = [1, 1]) (hso : m.space_order = 8) :
    m.cfl_coeff = 0.9 * Real.sqrt (4 / (2 * (272/45 : ℝ))) := by
  unfold Model.cfl_coeff Model.dim
  rw [hel, hsp, hso]
  norm_num [acousticSumAbs_four]

theorem raw_dt_acoustic_q (m : Model) (q : ℝ) (hel : m.is_elastic = false)
    (htti : m.is_tti = false) (hsp : m.spacing = [1, 1]) (hso : m.space_order = 8)
    (hq : 0 < q) (hm : m.min_m = (q / 0.9)^2 * (272/45 : ℝ) / 2) :
    m.raw_dt = q := by
  have h1 := cfl_coeff_acoustic_88 m hel hsp hso
  have h2 : m.thomsen_scale = 1 := by
    unfold Model.thomsen_scale
    rw [htti]
    simp
  have h3 : m.max_vp = Real.sqrt (1 / m.min_m) := by
    unfold Model.max_vp
    rw [hel]
    simp
  have h4 : listMin m.spacing = 1 := by
    rw [hsp]
    norm_num [listMin]
  have hq9 : (0:ℝ) < q / 0.9 := by positivity
  have hm0 : (0:ℝ) < m.min_m := by
    rw [hm]
    positivity
  unfold Model.raw_dt
  rw [h1, h2, h3, h4, one_mul, mul_one, one_div, Real.sqrt_inv, div_inv_eq_mul,
    mul_assoc, ← Real.sqrt_mul (by positivity), hm]
  have harg : 4 / (2 * (272/45 : ℝ)) * ((q / 0.9)^2 * (272/45 : ℝ) / 2) = (q / 0.9)^2 := by
    field_simp
    ring
  rw [harg, Real.sqrt_sq hq9.le]
  field_simp

/-- C2 (amended): for every model with no user-supplied dt, `critical_dt`
equals the Courant coefficient times the minimum grid spacing divided by
`anisotropy_scale * max_velocity` — `max_velocity` being
`sqrt(min(inverse_density)*(max(lambda)+2*max(mu)))` for elastic models and
`sqrt(1/min(squared_slowness))` otherwise — with the result rounded by
decimal formatting `"%.3e"` (scientific notation with three digits after the
decimal point, i.e. four significant decimal digits, not three), and no
warning is emitted. -/
theorem C2_amended (m : Model) (h : m.dt = none) :
    m.critical_dt =
      (round3e
        ((if m.is_elastic then
            0.9 * Real.sqrt (m.dim : ℝ) / (m.dim : ℝ) /
              (((elasticSumAbs (max (m.space_order / 2) 2) : ℚ) : ℝ) / 2)
          else
            0.9 * Real.sqrt (4 / ((m.dim : ℝ) *
              ((acousticSumAbs (max (m.space_order / 2) 4) : ℚ) : ℝ)))) *
          listMin m.spacing /
          (m.thomsen_scale *
            (if m.is_elastic then
              Real.sqrt (m.min_irho * (m.max_lam + 2 * m.max_mu))
            else Real.sqrt (1 / m.min_m)))), 0) := by
  simp only [Model.critical_dt, Model.raw_dt, Model.cfl_coeff, Model.max_vp, h]

/-- C2 witness: the amended statement instantiated at the concrete acoustic
model `mC2W`. -/
theorem C2_witness :
    mC2W.dt = none ∧
    mC2W.critical_dt =
      (round3e
        ((if mC2W.is_elastic then
            0.9 * Real.sqrt (mC2W.dim : ℝ) / (mC2W.dim : ℝ) /
              (((elasticSumAbs (max (mC2W.space_order / 2) 2) : ℚ) : ℝ) / 2)
          else
            0.9 * Real.sqrt (4 / ((mC2W.dim : ℝ) *
              ((acousticSumAbs (max (mC2W.space_order / 2) 4) : ℚ) : ℝ)))) *
          listMin mC2W.spacing /
          (mC2W.thomsen_scale *
            (if mC2W.is_elastic then
              Real.sqrt (mC2W.min_irho * (mC2W.max_lam + 2 * mC2W.max_mu))
            else Real.sqrt (1 / mC2W.min_m)))), 0) :=
  ⟨rfl, C2_amended mC2W rfl⟩

/-- C2 counterexample: the model `mC2` has unrounded CFL bound exactly
`1.2344`; `critical_dt` returns `1.234` (the `"%.3e"` value, four significant
digits), whereas rounding the bound to three significant decimal digits as
the claim states gives `1.23`. -/
theorem C2_counterexample :
    (mC2.critical_dt).1 = 1234/1000 ∧
    roundSig3 mC2.raw_dt = 123/100 ∧
    (mC2.critical_dt).1 ≠ roundSig3 mC2.raw_dt := by
  have hraw : mC2.raw_dt = 1543/1250 := by
    apply raw_dt_acoustic_q mC2 (1543/1250 : ℝ) rfl rfl rfl rfl (by norm_num)
    show mC2.min_m = ((1543/1250 : ℝ) / 0.9)^2 * (272/45 : ℝ) / 2
    have hq : ((1543/1250 : ℝ) / 0.9) = (1543/1125 : ℝ) := by norm_num
    rw [hq]
    rfl
  have hcrit : (mC2.critical_dt).1 = round3e mC2.raw_dt := by
    simp only [Model.critical_dt]
    rfl
  have h3e : round3e ((1543/1250 : ℝ)) = 1234/1000 := by
    rw [round3e_unit (by norm_num) (by norm_num)]
    have hr : round ((1543/1250 : ℝ) * 1000) = 1234 := by
      apply round_eq_of
      · push_cast
        norm_num
      · push_cast
        norm_num
    rw [hr]
    norm_num
  have hs3 : roundSig3 ((1543/1250 : ℝ)) = 123/100 := by
    rw [roundSig3_unit (by norm_num) (by norm_num)]
    have hr : round ((1543/1250 : ℝ) * 100) = 123 := by
      apply round_eq_of
      · push_cast
        norm_num
      · push_cast
        norm_num
    rw [hr]
    norm_num
  refine ⟨by rw [hcrit, hraw, h3e], by rw [hraw, hs3], ?_⟩
  rw [hcrit, hraw, h3e, hs3]
  norm_num

/-- C3 (amended): with a user-supplied positive step: if it exceeds the
computed (rounded) bound, exactly one non-fatal warning is emitted and the
computed bound is returned; otherwise the user step is returned rounded by
`"%.3e"` (four significant digits, not three); and in every case the returned
step never exceeds the computed stability bound. -/
theorem C3_amended (m : Model) (u : ℝ) (hu : m.dt = some u) (hupos : 0 < u) :
    (round3e m.raw_dt < u → m.critical_dt = (round3e m.raw_dt, 1)) ∧
    (u ≤ round3e m.raw_dt → m.critical_dt = (round3e u, 0)) ∧
    (m.critical_dt).1 ≤ round3e m.raw_dt := by
  have hne : u ≠ 0 := ne_of_gt hupos
  have hwarn : round3e m.raw_dt < u → m.critical_dt = (round3e m.raw_dt, 1) := by
    intro hgt
    simp only [Model.critical_dt, hu]
    rw [if_pos hne, if_pos hgt]
  have haccept : u ≤ round3e m.raw_dt → m.critical_dt = (round3e u, 0) := by
    intro hle
    simp only [Model.critical_dt, hu]
    rw [if_pos hne, if_neg (not_lt.mpr hle)]
  refine ⟨hwarn, haccept, ?_⟩
  by_cases hgt : round3e m.raw_dt < u
  · rw [hwarn hgt]
  · have hle : u ≤ round3e m.raw_dt := not_lt.mp hgt
    have hrawpos : 0 < m.raw_dt := by
      by_contra hneg
      push_neg at hneg
      have hid : round3e m.raw_dt = m.raw_dt := by
        rw [round3e, if_neg (not_lt.mpr hneg)]
      rw [hid] at hle
      linarith
    rw [haccept hle]
    calc round3e u ≤ round3e (round3e m.raw_dt) :=
          round3e_mono hupos hle
      _ = round3e m.raw_dt := round3e_idem hrawpos

/-- C3 witness: the amended statement instantiated at `mC3`, whose user step
`1.2344` is below the computed bound `9`. -/
theorem C3_witness :
    mC3.dt = some ((1543/1250 : ℝ)) ∧ (0:ℝ) < 1543/1250 ∧
    ((round3e mC3.raw_dt < (1543/1250 : ℝ) →
        mC3.critical_dt = (round3e mC3.raw_dt, 1)) ∧
      ((1543/1250 : ℝ) ≤ round3e mC3.raw_dt →
        mC3.critical_dt = (round3e ((1543/1250 : ℝ)), 0)) ∧
      (mC3.critical_dt).1 ≤ round3e mC3.raw_dt) :=
  ⟨rfl, by norm_num, C3_amended mC3 (1543/1250 : ℝ) rfl (by norm_num)⟩

/-- C3 counterexample: `mC3` has computed bound `9` and an accepted user step
of exactly `1.2344`; `critical_dt` returns the `"%.3e"` value `1.234` (four
significant digits), not the three-significant-digit value `1.23` stated by
the claim. -/
theorem C3_counterexample :
    mC3.dt = some ((1543/1250 : ℝ)) ∧
    (1543/1250 : ℝ) ≤ round3e mC3.raw_dt ∧
    (mC3.critical_dt).1 = 1234/1000 ∧
    roundSig3 ((1543/1250 : ℝ)) = 123/100 ∧
    (mC3.critical_dt).1 ≠ roundSig3 ((1543/1250 : ℝ)) := by
  have hraw : mC3.raw_dt = 9 := by
    apply raw_dt_acoustic_q mC3 9 rfl rfl rfl rfl (by norm_num)
    show mC3.min_m = ((9 : ℝ) / 0.9)^2 * (272/45 : ℝ) / 2
    show (2720/9 : ℝ) = ((9 : ℝ) / 0.9)^2 * (272/45 : ℝ) / 2
    norm_num
  have h9 : round3e ((9:ℝ)) = 9 := by
    rw [round3e_unit (by norm_num) (by norm_num)]
    have hr : round ((9:ℝ) * 1000) = 9000 := by
      apply round_eq_of
      · push_cast
        norm_num
      · push_cast
        norm_num
    rw [hr]
    norm_num
  have hdt : mC3.dt = some ((1543/1250 : ℝ)) := rfl
  have hcrit : (mC3.critical_dt).1 = round3e ((1543/1250 : ℝ)) := by
    simp only [Model.critical_dt, hraw, h9, hdt]
    rw [if_pos (by norm_num : (1543/1250 : ℝ) ≠ 0),
      if_neg (by norm_num : ¬((1543/1250 : ℝ)) > 9)]
  have h3e : round3e ((1543/1250 : ℝ)) = 1234/1000 := by
    rw [round3e_unit (by norm_num) (by norm_num)]
    have hr : round ((1543/1250 : ℝ) * 1000) = 1234 := by
      apply round_eq_of
      · push_cast
        norm_num
      · push_cast
        norm_num
    rw [hr]
    norm_num
  have hs3 : roundSig3 ((1543/1250 : ℝ)) = 123/100 := by
    rw [roundSig3_unit (by norm_num) (by norm_num)]
    have hr : round ((1543/1250 : ℝ) * 100) = 123 := by
      apply round_eq_of
      · push_cast
        norm_num
      · push_cast
        norm_num
    rw [hr]
    norm_num
  refine ⟨rfl, by rw [hraw, h9]; norm_num, by rw [hcrit, h3e], hs3, ?_⟩
  rw [hcrit, h3e, hs3]
  norm_num

/-- C4: evaluation of the code at the failing input (Thomsen input `0.2`):
the constructor stores `epsilon = 1 + 2*0.2`, and `_thomsen_scale` then
computes `sqrt(1 + 2*(1 + 2*0.2)) = sqrt(3.8)` — not the physical Thomsen
correction `sqrt(1 + 2*0.2) = sqrt(1.4)` asserted by the claim, which is what
the constructor's own `self.scale = np.sqrt(np.max(epsilon))` (line 239)
computes from the same stored field.  The non-TTI clause of the claim does
hold (`mC4b`). -/
theorem C4_thomsen_scale_bug :
    mC4.max_epsilon = 1 + 2 * (0.2 : ℝ) ∧
    mC4.thomsen_scale = Real.sqrt (1 + 2 * (1 + 2 * (0.2 : ℝ))) ∧
    initScale (storedThomsen [(0.2 : ℝ)]) = Real.sqrt (1 + 2 * (0.2 : ℝ)) ∧
    mC4.thomsen_scale ≠ Real.sqrt (1 + 2 * (0.2 : ℝ)) ∧
    mC4b.thomsen_scale = 1 := by
  have heps : mC4.max_epsilon = 1 + 2 * (0.2 : ℝ) := by
    show listMax (storedThomsen [(0.2 : ℝ)]) = 1 + 2 * (0.2 : ℝ)
    simp [storedThomsen, listMax]
  have hts : mC4.thomsen_scale = Real.sqrt (1 + 2 * (1 + 2 * (0.2 : ℝ))) := by
    unfold Model.thomsen_scale
    rw [heps]
    simp only [show mC4.is_tti = true from rfl, if_true]
  refine ⟨heps, hts, ?_, ?_, ?_⟩
  · unfold initScale
    simp [storedThomsen, listMax]
  · rw [hts]
    have hlt : Real.sqrt (1 + 2 * (0.2 : ℝ)) < Real.sqrt (1 + 2 * (1 + 2 * (0.2 : ℝ))) :=
      Real.sqrt_lt_sqrt (by norm_num) (by norm_num)
    exact fun h => absurd h.symm (ne_of_lt hlt)
  · unfold Model.thomsen_scale
    rw [if_neg]
    simp [mC4b]

/-- C5 (amended): the Courant coefficient is, for elastic models,
`0.9*sqrt(dim)/dim/(S/2)` with `S` the sum of absolute last-row weights of
the first-derivative stencil on the `2h` points `-h, …, h-1` evaluated at
`0.5`, `h = max(space_order/2, 2)`; and otherwise `0.9*sqrt(4/(dim*S'))`
with `S'` the sum of absolute weights of the second-derivative stencil on the
points `-h, …, h-1` evaluated at `0`, `h = max(space_order/2, 4)` — the point
set is `range(-h, h)`, not a symmetric (centered) stencil.  Concretely,
`S = 3725/1536` (elastic) and `S' = 272/45` (acoustic) at `space_order = 8`. -/
theorem C5_amended (m : Model) :
    (m.cfl_coeff = if m.is_elastic then
        0.9 * Real.sqrt (m.dim : ℝ) / (m.dim : ℝ) /
          (((sumAbs (lastRow 1 (rangePoints (max (m.space_order / 2) 2)) (1/2)) : ℚ) : ℝ) / 2)
      else
        0.9 * Real.sqrt (4 / ((m.dim : ℝ) *
          ((sumAbs (lastRow 2 (rangePoints (max (m.space_order / 2) 4)) 0) : ℚ) : ℝ)))) ∧
    elasticSumAbs 4 = 3725/1536 ∧ acousticSumAbs 4 = 272/45 :=
  ⟨rfl, elasticSumAbs_four, acousticSumAbs_four⟩

/-- C5 counterexample: at the acoustic order-8 model `mC5` the code's
coefficient uses the `range(-4, 4)` stencil (`sum = 272/45`); a *centered*
second-derivative stencil of half-width 4 has `sum = 2048/315`, so the
claimed coefficient differs from the computed one. -/
theorem C5_counterexample :
    mC5.cfl_coeff =
      0.9 * Real.sqrt (4 / ((mC5.dim : ℝ) *
        ((acousticSumAbs (max (mC5.space_order / 2) 4) : ℚ) : ℝ))) ∧
    mC5.cfl_coeff ≠
      0.9 * Real.sqrt (4 / ((mC5.dim : ℝ) *
        ((centeredAcousticSumAbs (max (mC5.space_order / 2) 4) : ℚ) : ℝ))) := by
  have hso : max (mC5.space_order / 2) 4 = 4 := rfl
  have hdim : ((mC5.dim : ℕ) : ℝ) = 2 := by
    show ((List.length [(1:ℝ), 1] : ℕ) : ℝ) = 2
    norm_num
  have h1 : mC5.cfl_coeff =
      0.9 * Real.sqrt (4 / ((mC5.dim : ℝ) *
        ((acousticSumAbs (max (mC5.space_order / 2) 4) : ℚ) : ℝ))) := by
    unfold Model.cfl_coeff
    rw [if_neg]
    simp [mC5]
  refine ⟨h1, ?_⟩
  rw [h1, hso, hdim, acousticSumAbs_four, centeredAcousticSumAbs_four]
  have hc1 : (((272:ℚ)/45 : ℚ) : ℝ) = 272/45 := by norm_num
  have hc2 : (((2048:ℚ)/315 : ℚ) : ℝ) = 2048/315 := by norm_num
  rw [hc1, hc2]
  intro hEq
  have h09 : (0.9:ℝ) ≠ 0 := by norm_num
  have hsq : Real.sqrt (4 / (2 * (272/45 : ℝ))) = Real.sqrt (4 / (2 * (2048/315 : ℝ))) :=
    mul_left_cancel₀ h09 hEq
  have harg : (4 : ℝ) / (2 * (272/45 : ℝ)) = 4 / (2 * (2048/315 : ℝ)) :=
    (Real.sqrt_inj (by norm_num) (by norm_num)).mp hsq
  norm_num at harg

/-- C8: for every model (with no user step, positive stencil/space data),
`critical_dt` is strictly positive; and holding spacing, order and physics
fixed, it is monotonically non-increasing as the maximum propagation velocity
increases. -/
theorem C8_positive_antitone (m1 m2 : Model)
    (hdt1 : m1.dt = none) (hdt2 : m2.dt = none)
    (hsp : m2.spacing = m1.spacing) (hso : m2.space_order = m1.space_order)
    (hel : m2.is_elastic = m1.is_elastic) (htti : m2.is_tti = m1.is_tti)
    (heps : m2.max_epsilon = m1.max_epsilon)
    (hcfl : 0 < m1.cfl_coeff) (hmin : 0 < listMin m1.spacing)
    (hts : 0 < m1.thomsen_scale) (hvp : 0 < m1.max_vp)
    (hmono : m1.max_vp ≤ m2.max_vp) :
    0 < (m1.critical_dt).1 ∧ (m2.critical_dt).1 ≤ (m1.critical_dt).1 := by
  have hcfl2 : m2.cfl_coeff = m1.cfl_coeff := by
    unfold Model.cfl_coeff Model.dim
    rw [hsp, hso, hel]
  have hts2 : m2.thomsen_scale = m1.thomsen_scale := by
    unfold Model.thomsen_scale
    rw [htti, heps]
  have hvp2 : 0 < m2.max_vp := lt_of_lt_of_le hvp hmono
  have hraw1 : 0 < m1.raw_dt :=
    div_pos (mul_pos hcfl hmin) (mul_pos hts hvp)
  have hraw2pos : 0 < m2.raw_dt := by
    unfold Model.raw_dt
    rw [hcfl2, hts2, hsp]
    exact div_pos (mul_pos hcfl hmin) (mul_pos hts hvp2)
  have hraw2 : m2.raw_dt ≤ m1.raw_dt := by
    unfold Model.raw_dt
    rw [hcfl2, hts2, hsp]
    rw [div_le_div_iff (mul_pos hts hvp2) (mul_pos hts hvp)]
    have hb : m1.thomsen_scale * m1.max_vp ≤ m1.thomsen_scale * m2.max_vp :=
      mul_le_mul_of_nonneg_left hmono hts.le
    nlinarith [mul_pos hcfl hmin]
  have hc1 : (m1.critical_dt).1 = round3e m1.raw_dt := by
    simp only [Model.critical_dt, hdt1]
  have hc2 : (m2.critical_dt).1 = round3e m2.raw_dt := by
    simp only [Model.critical_dt, hdt2]
  constructor
  · rw [hc1]
    exact round3e_pos hraw1
  · rw [hc1, hc2]
    exact round3e_mono hraw2pos hraw2

/-- C8 witness: instantiation at two concrete acoustic order-8 models whose
maximum velocities are `1` (`mC8a`) and `2` (`mC8b`). -/
theorem C8_witness :
    (mC8a.dt = none ∧ mC8b.dt = none ∧ mC8b.spacing = mC8a.spacing ∧
      mC8b.space_order = mC8a.space_order ∧ mC8b.is_elastic = mC8a.is_elastic ∧
      mC8b.is_tti = mC8a.is_tti ∧ mC8b.max_epsilon = mC8a.max_epsilon ∧
      0 < mC8a.cfl_coeff ∧ 0 < listMin mC8a.spacing ∧ 0 < mC8a.thomsen_scale ∧
      0 < mC8a.max_vp ∧ mC8a.max_vp ≤ mC8b.max_vp) ∧
    (0 < (mC8a.critical_dt).1 ∧ (mC8b.critical_dt).1 ≤ (mC8a.critical_dt).1) := by
  have hcfl : 0 < mC8a.cfl_coeff := by
    rw [cfl_coeff_acoustic_88 mC8a rfl rfl rfl]
    positivity
  have hmin : 0 < listMin mC8a.spacing := by
    show (0:ℝ) < listMin [1, 1]
    norm_num [listMin]
  have hts : 0 < mC8a.thomsen_scale := by
    simp [Model.thomsen_scale, show mC8a.is_tti = false from rfl]
  have hvpa : mC8a.max_vp = 1 := by
    simp [Model.max_vp, show mC8a.is_elastic = false from rfl,
      show mC8a.min_m = 1 from rfl]
  have hvpb : mC8b.max_vp = 2 := by
    have h14 : (1:ℝ) / mC8b.min_m = 4 := by
      rw [show mC8b.min_m = (1/4 : ℝ) from rfl]
      norm_num
    simp only [Model.max_vp, show mC8b.is_elastic = false from rfl,
      Bool.false_eq_true, if_false, h14]
    rw [show (4:ℝ) = 2^2 by norm_num, Real.sqrt_sq (by norm_num)]
  refine ⟨⟨rfl, rfl, rfl, rfl, rfl, rfl, rfl, hcfl, hmin, hts, ?_, ?_⟩, ?_⟩
  · rw [hvpa]
    norm_num
  · rw [hvpa, hvpb]
    norm_num
  · exact C8_positive_antitone mC8a mC8b rfl rfl rfl rfl rfl rfl rfl
      hcfl hmin hts (by rw [hvpa]; norm_num) (by rw [hvpa, hvpb]; norm_num)

/-! Helper lemmas relating the code ramp to the ramp formula of the spec. -/

theorem posVal_eq {n dist : ℤ} (hn : 0 < n) :
    posVal n dist = |(n:ℝ) - (dist:ℝ) + 1| / (n:ℝ) := by
  have hn' : (0:ℝ) < (n:ℝ) := by exact_mod_cast hn
  unfold posVal
  rw [abs_div, abs_of_pos hn']

theorem rampVal_damp_eq {n dist : ℤ} (hn : 0 < n) (h : ℝ) :
    rampVal AbcType.damp n dist / h = specRamp n dist h := by
  unfold rampVal dampcoeff specRamp
  rw [posVal_eq hn]
  norm_num

theorem rampVal_mask_eq {n dist : ℤ} (hn : 0 < n) (h : ℝ) :
    rampVal AbcType.mask n dist / h = -specRamp n dist h := by
  unfold rampVal dampcoeff specRamp
  rw [posVal_eq hn]
  rw [neg_div]
  norm_num

theorem leftContrib_zero (nd : ℕ) (g : DampGrid nd) (abc : AbcType) (fs : Bool)
    (d : Fin nd) (i : ℤ) (h : ¬(0 ≤ i ∧ i ≤ ((g.pad d).1 : ℤ) - 3 - 1)) :
    leftContrib nd g abc fs d i = 0 := by
  simp only [leftContrib]
  by_cases hfs : fs = true ∧ (d : ℕ) = nd - 1
  · rw [if_pos hfs]
  · rw [if_neg hfs, if_neg h]

theorem leftContrib_in (nd : ℕ) (g : DampGrid nd) (abc : AbcType) (fs : Bool)
    (d : Fin nd) (i : ℤ) (hfs : ¬(fs = true ∧ (d : ℕ) = nd - 1))
    (h : 0 ≤ i ∧ i ≤ ((g.pad d).1 : ℤ) - 3 - 1) :
    leftContrib nd g abc fs d i =
      rampVal abc (((g.pad d).1 : ℤ) - 3) i / g.spacing d := by
  simp only [leftContrib]
  rw [if_neg hfs, if_pos h]

theorem rightContrib_zero (nd : ℕ) (g : DampGrid nd) (abc : AbcType)
    (d : Fin nd) (i : ℤ)
    (h : ¬(((g.size d : ℕ) : ℤ) - 1 - (((g.pad d).2 : ℤ) - 3) + 1 ≤ i ∧
      i ≤ ((g.size d : ℕ) : ℤ) - 1)) :
    rightContrib nd g abc d i = 0 := by
  simp only [rightContrib]
  rw [if_neg h]

theorem rightContrib_in (nd : ℕ) (g : DampGrid nd) (abc : AbcType)
    (d : Fin nd) (i : ℤ)
    (h : ((g.size d : ℕ) : ℤ) - 1 - (((g.pad d).2 : ℤ) - 3) + 1 ≤ i ∧
      i ≤ ((g.size d : ℕ) : ℤ) - 1) :
    rightContrib nd g abc d i =
      rampVal abc (((g.pad d).2 : ℤ) - 3) ((((g.size d : ℕ) : ℤ) - 1) - i) /
        g.spacing d := by
  simp only [rightContrib]
  rw [if_pos h]

/-- C1: with `abc_type = "damp"` and every layer thickness `t > 3`, the field
is exactly `0` at interior cells; inside the effective layer of thickness
`n = t - 3` on a side of a dimension, that side contributes
`coeff*(pos - sin(2π·pos)/(2π)) / spacing` with `coeff = 1.5·ln(1000)/n` and
`pos = |n - dist + 1|/n` (`dist` = offset from the outer layer edge); and the
field is the base value plus the sum of all per-side contributions (sides
superpose additively at corners). -/
theorem C1_damp_profile (nd : ℕ) (g : DampGrid nd) (idx : Fin nd → ℤ)
    (hpad : ∀ d : Fin nd, 3 < (g.pad d).1 ∧ 3 < (g.pad d).2) :
    ((∀ d : Fin nd, ((g.pad d).1 : ℤ) ≤ idx d ∧
        idx d ≤ ((g.size d : ℕ) : ℤ) - 1 - ((g.pad d).2 : ℤ)) →
      dampField nd g AbcType.damp false idx = 0) ∧
    (∀ d : Fin nd, 0 ≤ idx d → idx d ≤ ((g.pad d).1 : ℤ) - 3 - 1 →
      leftContrib nd g AbcType.damp false d (idx d) =
        specRamp (((g.pad d).1 : ℤ) - 3) (idx d) (g.spacing d)) ∧
    (∀ d : Fin nd,
      ((g.size d : ℕ) : ℤ) - 1 - (((g.pad d).2 : ℤ) - 3) + 1 ≤ idx d →
      idx d ≤ ((g.size d : ℕ) : ℤ) - 1 →
      rightContrib nd g AbcType.damp d (idx d) =
        specRamp (((g.pad d).2 : ℤ) - 3) ((((g.size d : ℕ) : ℤ) - 1) - idx d)
          (g.spacing d)) ∧
    dampField nd g AbcType.damp false idx =
      baseVal AbcType.damp + ∑ d : Fin nd,
        (leftContrib nd g AbcType.damp false d (idx d) +
          rightContrib nd g AbcType.damp d (idx d)) := by
  refine ⟨?_, ?_, ?_, rfl⟩
  · intro hint
    unfold dampField
    rw [show baseVal AbcType.damp = (0:ℝ) from rfl, zero_add]
    apply Finset.sum_eq_zero
    intro d _
    have h1 := (hpad d).1
    have h2 := (hpad d).2
    have hi1 := (hint d).1
    have hi2 := (hint d).2
    rw [leftContrib_zero nd g _ _ d _ (by omega),
      rightContrib_zero nd g _ d _ (by omega), add_zero]
  · intro d h0 h1
    rw [leftContrib_in nd g _ _ d _ (by simp) ⟨h0, h1⟩]
    exact rampVal_damp_eq (by have := (hpad d).1; omega) _
  · intro d h0 h1
    rw [rightContrib_in nd g _ d _ ⟨h0, h1⟩]
    exact rampVal_damp_eq (by have := (hpad d).2; omega) _

/-- C1 witness: the damp-profile statement instantiated on a one-dimensional
grid of 100 points with layer thickness 40 and an interior index. -/
theorem C1_witness :
    (∀ d : Fin 1, 3 < (gC1.pad d).1 ∧ 3 < (gC1.pad d).2) ∧
    (((∀ d : Fin 1, ((gC1.pad d).1 : ℤ) ≤ 50 ∧
        (50:ℤ) ≤ ((gC1.size d : ℕ) : ℤ) - 1 - ((gC1.pad d).2 : ℤ)) →
      dampField 1 gC1 AbcType.damp false (fun _ => 50) = 0) ∧
    (∀ d : Fin 1, 0 ≤ (50:ℤ) → (50:ℤ) ≤ ((gC1.pad d).1 : ℤ) - 3 - 1 →
      leftContrib 1 gC1 AbcType.damp false d 50 =
        specRamp (((gC1.pad d).1 : ℤ) - 3) 50 (gC1.spacing d)) ∧
    (∀ d : Fin 1,
      ((gC1.size d : ℕ) : ℤ) - 1 - (((gC1.pad d).2 : ℤ) - 3) + 1 ≤ (50:ℤ) →
      (50:ℤ) ≤ ((gC1.size d : ℕ) : ℤ) - 1 →
      rightContrib 1 gC1 AbcType.damp d 50 =
        specRamp (((gC1.pad d).2 : ℤ) - 3) ((((gC1.size d : ℕ) : ℤ) - 1) - 50)
          (gC1.spacing d)) ∧
    dampField 1 gC1 AbcType.damp false (fun _ => 50) =
      baseVal AbcType.damp + ∑ d : Fin 1,
        (leftContrib 1 gC1 AbcType.damp false d 50 +
          rightContrib 1 gC1 AbcType.damp d 50)) :=
  ⟨fun _ => ⟨by show (3:ℕ) < 40; norm_num, by show (3:ℕ) < 40; norm_num⟩,
    C1_damp_profile 1 gC1 (fun _ => 50)
      (fun _ => ⟨by show (3:ℕ) < 40; norm_num, by show (3:ℕ) < 40; norm_num⟩)⟩

/-- C6 (amended): with `abc_type = "mask"` and layer thickness `t > 3`, the
field is exactly `1` at interior cells, and inside the effective layer each
side contributes the *negated* ramp of section 4.1 — divided, exactly as for
damp-type fields, by the grid spacing of that dimension (the division is not
restricted to damp-type fields). -/
theorem C6_amended (nd : ℕ) (g : DampGrid nd) (idx : Fin nd → ℤ)
    (hpad : ∀ d : Fin nd, 3 < (g.pad d).1 ∧ 3 < (g.pad d).2) :
    ((∀ d : Fin nd, ((g.pad d).1 : ℤ) ≤ idx d ∧
        idx d ≤ ((g.size d : ℕ) : ℤ) - 1 - ((g.pad d).2 : ℤ)) →
      dampField nd g AbcType.mask false idx = 1) ∧
    (∀ d : Fin nd, 0 ≤ idx d → idx d ≤ ((g.pad d).1 : ℤ) - 3 - 1 →
      leftContrib nd g AbcType.mask false d (idx d) =
        -specRamp (((g.pad d).1 : ℤ) - 3) (idx d) (g.spacing d)) ∧
    (∀ d : Fin nd,
      ((g.size d : ℕ) : ℤ) - 1 - (((g.pad d).2 : ℤ) - 3) + 1 ≤ idx d →
      idx d ≤ ((g.size d : ℕ) : ℤ) - 1 →
      rightContrib nd g AbcType.mask d (idx d) =
        -specRamp (((g.pad d).2 : ℤ) - 3) ((((g.size d : ℕ) : ℤ) - 1) - idx d)
          (g.spacing d)) ∧
    dampField nd g AbcType.mask false idx =
      baseVal AbcType.mask + ∑ d : Fin nd,
        (leftContrib nd g AbcType.mask false d (idx d) +
          rightContrib nd g AbcType.mask d (idx d)) := by
  refine ⟨?_, ?_, ?_, rfl⟩
  · intro hint
    unfold dampField
    rw [show baseVal AbcType.mask = (1:ℝ) from rfl]
    have hz : ∑ d : Fin nd,
        (leftContrib nd g AbcType.mask false d (idx d) +
          rightContrib nd g AbcType.mask d (idx d)) = 0 := by
      apply Finset.sum_eq_zero
      intro d _
      have h1 := (hpad d).1
      have h2 := (hpad d).2
      have hi1 := (hint d).1
      have hi2 := (hint d).2
      rw [leftContrib_zero nd g _ _ d _ (by omega),
        rightContrib_zero nd g _ d _ (by omega), add_zero]
    rw [hz, add_zero]
  · intro d h0 h1
    rw [leftContrib_in nd g _ _ d _ (by simp) ⟨h0, h1⟩]
    exact rampVal_mask_eq (by have := (hpad d).1; omega) _
  · intro d h0 h1
    rw [rightContrib_in nd g _ d _ ⟨h0, h1⟩]
    exact rampVal_mask_eq (by have := (hpad d).2; omega) _

/-- C6 witness: the mask-profile statement instantiated on a one-dimensional
grid of 100 points with layer thickness 40, spacing 2, and an interior index. -/
theorem C6_witness :
    (∀ d : Fin 1, 3 < (gC6.pad d).1 ∧ 3 < (gC6.pad d).2) ∧
    (((∀ d : Fin 1, ((gC6.pad d).1 : ℤ) ≤ 50 ∧
        (50:ℤ) ≤ ((gC6.size d : ℕ) : ℤ) - 1 - ((gC6.pad d).2 : ℤ)) →
      dampField 1 gC6 AbcType.mask false (fun _ => 50) = 1) ∧
    (∀ d : Fin 1, 0 ≤ (50:ℤ) → (50:ℤ) ≤ ((gC6.pad d).1 : ℤ) - 3 - 1 →
      leftContrib 1 gC6 AbcType.mask false d 50 =
        -specRamp (((gC6.pad d).1 : ℤ) - 3) 50 (gC6.spacing d)) ∧
    (∀ d : Fin 1,
      ((gC6.size d : ℕ) : ℤ) - 1 - (((gC6.pad d).2 : ℤ) - 3) + 1 ≤ (50:ℤ) →
      (50:ℤ) ≤ ((gC6.size d : ℕ) : ℤ) - 1 →
      rightContrib 1 gC6 AbcType.mask d 50 =
        -specRamp (((gC6.pad d).2 : ℤ) - 3) ((((gC6.size d : ℕ) : ℤ) - 1) - 50)
          (gC6.spacing d)) ∧
    dampField 1 gC6 AbcType.mask false (fun _ => 50) =
      baseVal AbcType.mask + ∑ d : Fin 1,
        (leftContrib 1 gC6 AbcType.mask false d 50 +
          rightContrib 1 gC6 AbcType.mask d 50)) :=
  ⟨fun _ => ⟨by show (3:ℕ) < 40; norm_num, by show (3:ℕ) < 40; norm_num⟩,
    C6_amended 1 gC6 (fun _ => 50)
      (fun _ => ⟨by show (3:ℕ) < 40; norm_num, by show (3:ℕ) < 40; norm_num⟩)⟩

/-- C6 counterexample: on a one-dimensional grid with thickness 40 and grid
spacing 2, the mask field at the outermost cell equals `1 - ramp/2` — the
negated ramp is divided by the spacing, exactly as for damp fields — and not
`1 - ramp` as the claim (mask values not divided by spacing) states. -/
theorem C6_counterexample :
    dampField 1 gC6 AbcType.mask false (fun _ => 0) = 1 - specRamp 37 0 2 ∧
    dampField 1 gC6 AbcType.mask false (fun _ => 0) ≠ 1 - specRamp 37 0 1 := by
  have hn37 : ((gC6.pad (0 : Fin 1)).1 : ℤ) - 3 = 37 := by
    show ((40:ℕ) : ℤ) - 3 = 37
    norm_num
  have hval : dampField 1 gC6 AbcType.mask false (fun _ => 0) =
      1 - specRamp 37 0 2 := by
    unfold dampField
    rw [Fin.sum_univ_one]
    rw [leftContrib_in 1 gC6 _ _ 0 0 (by simp)
      (by rw [hn37]; norm_num)]
    rw [rightContrib_zero 1 gC6 _ 0 0 (by
      show ¬(((100:ℕ):ℤ) - 1 - (((40:ℕ):ℤ) - 3) + 1 ≤ 0 ∧ (0:ℤ) ≤ ((100:ℕ):ℤ) - 1)
      push_neg
      intro h
      omega)]
    rw [hn37, rampVal_mask_eq (by norm_num) _]
    rw [show gC6.spacing (0 : Fin 1) = 2 from rfl,
      show baseVal AbcType.mask = (1:ℝ) from rfl]
    ring
  have hA : 0 < specRamp 37 0 1 := by
    unfold specRamp
    rw [div_one]
    have habs : |((37:ℤ):ℝ) - ((0:ℤ):ℝ) + 1| = 38 := by norm_num
    rw [habs]
    have hlog : 0 < Real.log 1000 := Real.log_pos (by norm_num)
    have hpi : (3:ℝ) < Real.pi := Real.pi_gt_three
    have hsin : Real.sin (2 * Real.pi * ((38:ℝ) / ((37:ℤ):ℝ))) ≤ 1 :=
      Real.sin_le_one _
    have h2pi : (0:ℝ) < 2 * Real.pi := by linarith
    have hdivle : Real.sin (2 * Real.pi * ((38:ℝ) / ((37:ℤ):ℝ))) / (2 * Real.pi)
        ≤ 1 / (2 * Real.pi) := div_le_div_of_nonneg_right hsin h2pi.le
    have hsix : (1:ℝ) / (2 * Real.pi) < 1 / 6 := by
      rw [div_lt_div_iff h2pi (by norm_num)]
      linarith
    have h37 : ((37:ℤ):ℝ) = 37 := by norm_num
    rw [h37]
    have hfac : (0:ℝ) < 38 / 37 -
        Real.sin (2 * Real.pi * ((38:ℝ) / 37)) / (2 * Real.pi) := by
      rw [h37] at hdivle
      nlinarith
    have hcoef : (0:ℝ) < 1.5 * Real.log 1000 / 37 := by positivity
    exact mul_pos hcoef hfac
  have hhalf : specRamp 37 0 2 = specRamp 37 0 1 / 2 := by
    unfold specRamp
    rw [div_one]
  refine ⟨hval, ?_⟩
  rw [hval, hhalf]
  intro hEq
  have : specRamp 37 0 1 = 0 := by linarith
  linarith

/-- C7: with the free-surface flag enabled, the near (left) side of the last
dimension is never damped: its strip contributes `0` everywhere, the field
does not depend on that side's layer thickness at all, every other
dimension-side contributes exactly as without free surface, and a cell lying
in no other side's effective strip keeps exactly the base value. -/
theorem C7_free_surface (nd : ℕ) (g g2 : DampGrid nd) (abc : AbcType)
    (idx : Fin nd → ℤ)
    (hsz : g2.size = g.size) (hsp : g2.spacing = g.spacing)
    (hpadL : ∀ d : Fin nd, (d : ℕ) ≠ nd - 1 → g2.pad d = g.pad d)
    (hpadR : ∀ d : Fin nd, (g2.pad d).2 = (g.pad d).2) :
    (∀ d : Fin nd, (d : ℕ) = nd - 1 →
      leftContrib nd g abc true d (idx d) = 0) ∧
    dampField nd g abc true idx = dampField nd g2 abc true idx ∧
    (∀ d : Fin nd, (d : ℕ) ≠ nd - 1 →
      leftContrib nd g abc true d (idx d) =
        leftContrib nd g abc false d (idx d)) ∧
    ((∀ d : Fin nd, (d : ℕ) = nd - 1 ∨
        ¬(0 ≤ idx d ∧ idx d ≤ ((g.pad d).1 : ℤ) - 3 - 1)) →
      (∀ d : Fin nd,
        ¬(((g.size d : ℕ) : ℤ) - 1 - (((g.pad d).2 : ℤ) - 3) + 1 ≤ idx d ∧
          idx d ≤ ((g.size d : ℕ) : ℤ) - 1)) →
      dampField nd g abc true idx = baseVal abc) := by
  have hleft0 : ∀ d : Fin nd, (d : ℕ) = nd - 1 →
      ∀ g3 : DampGrid nd, leftContrib nd g3 abc true d (idx d) = 0 := by
    intro d hd g3
    simp only [leftContrib]
    simp [hd]
  refine ⟨fun d hd => hleft0 d hd g, ?_, ?_, ?_⟩
  · unfold dampField
    congr 1
    apply Finset.sum_congr rfl
    intro d _
    have hright : rightContrib nd g abc d (idx d) =
        rightContrib nd g2 abc d (idx d) := by
      simp only [rightContrib, hsz, hsp, hpadR]
    by_cases hd : (d : ℕ) = nd - 1
    · rw [hleft0 d hd g, hleft0 d hd g2, hright]
    · have hpd := hpadL d hd
      have hleft : leftContrib nd g abc true d (idx d) =
          leftContrib nd g2 abc true d (idx d) := by
        simp only [leftContrib, hsp, hpd]
      rw [hleft, hright]
  · intro d hd
    simp only [leftContrib]
    simp [hd]
  · intro hL hR
    unfold dampField
    have hz : ∑ d : Fin nd,
        (leftContrib nd g abc true d (idx d) +
          rightContrib nd g abc d (idx d)) = 0 := by
      apply Finset.sum_eq_zero
      intro d _
      rw [rightContrib_zero nd g _ d _ (hR d), add_zero]
      rcases hL d with hd | hnot
      · exact hleft0 d hd g
      · exact leftContrib_zero nd g _ _ d _ hnot
    rw [hz, add_zero]

/-- C7 witness: instantiation on two 2-D grids differing only in the
near-side thickness of the last dimension (40 versus 7), at an index lying in
that near strip and interior with respect to every other side. -/
theorem C7_witness :
    (gC7b.size = gC7.size ∧ gC7b.spacing = gC7.spacing ∧
      (∀ d : Fin 2, (d : ℕ) ≠ 1 → gC7b.pad d = gC7.pad d) ∧
      (∀ d : Fin 2, (gC7b.pad d).2 = (gC7.pad d).2)) ∧
    ((∀ d : Fin 2, (d : ℕ) = 2 - 1 →
      leftContrib 2 gC7 AbcType.mask true d
        ((fun e : Fin 2 => if (e : ℕ) = 1 then (0:ℤ) else 50) d) = 0) ∧
    dampField 2 gC7 AbcType.mask true
        (fun e : Fin 2 => if (e : ℕ) = 1 then (0:ℤ) else 50) =
      dampField 2 gC7b AbcType.mask true
        (fun e : Fin 2 => if (e : ℕ) = 1 then (0:ℤ) else 50) ∧
    (∀ d : Fin 2, (d : ℕ) ≠ 2 - 1 →
      leftContrib 2 gC7 AbcType.mask true d
          ((fun e : Fin 2 => if (e : ℕ) = 1 then (0:ℤ) else 50) d) =
        leftContrib 2 gC7 AbcType.mask false d
          ((fun e : Fin 2 => if (e : ℕ) = 1 then (0:ℤ) else 50) d)) ∧
    ((∀ d : Fin 2, (d : ℕ) = 2 - 1 ∨
        ¬(0 ≤ (fun e : Fin 2 => if (e : ℕ) = 1 then (0:ℤ) else 50) d ∧
          (fun e : Fin 2 => if (e : ℕ) = 1 then (0:ℤ) else 50) d ≤
            ((gC7.pad d).1 : ℤ) - 3 - 1)) →
      (∀ d : Fin 2,
        ¬(((gC7.size d : ℕ) : ℤ) - 1 - (((gC7.pad d).2 : ℤ) - 3) + 1 ≤
            (fun e : Fin 2 => if (e : ℕ) = 1 then (0:ℤ) else 50) d ∧
          (fun e : Fin 2 => if (e : ℕ) = 1 then (0:ℤ) else 50) d ≤
            ((gC7.size d : ℕ) : ℤ) - 1)) →
      dampField 2 gC7 AbcType.mask true
        (fun e : Fin 2 => if (e : ℕ) = 1 then (0:ℤ) else 50) =
        baseVal AbcType.mask)) := by
  have hpadL : ∀ d : Fin 2, (d : ℕ) ≠ 1 → gC7b.pad d = gC7.pad d := by
    intro d hd
    show (if (d : ℕ) = 1 then ((7:ℕ), (40:ℕ)) else (40, 40)) = (40, 40)
    rw [if_neg hd]
  have hpadR : ∀ d : Fin 2, (gC7b.pad d).2 = (gC7.pad d).2 := by
    intro d
    show (if (d : ℕ) = 1 then ((7:ℕ), (40:ℕ)) else (40, 40)).2 = 40
    by_cases hd : (d : ℕ) = 1
    · rw [if_pos hd]
    · rw [if_neg hd]
  exact ⟨⟨rfl, rfl, hpadL, hpadR⟩,
    C7_free_surface 2 gC7 gC7b AbcType.mask
      (fun e : Fin 2 => if (e : ℕ) = 1 then (0:ℤ) else 50) rfl rfl hpadL hpadR⟩
